import Mathlib

/-!
Verification of the connection-registry and code-generator utility core of the
onyx-CAD-MCP repository, shallowly embedded in Lean 4.

Numeric code of the source (Python floats) is embedded over the rationals, so
all arithmetic facts below are exact statements about the idealised arithmetic
of the algorithms.  Python strings are embedded as Lean strings / character
lists; the Python dict that backs the session registry is embedded as an
ordered association list with dict semantics (lookup of the first matching
key, in-place delete, size, insertion order preserved).
-/

namespace Onyx

/-! ## Characters used by the string utilities (src/server/utils.py) -/

/-- The backslash character. -/
def bsChar : Char := Char.ofNat 92

/-- The double-quote character. -/
def qChar : Char := Char.ofNat 34

/-! ## Point and the shoelace area (src/server/utils.py, calculate_area_from_points) -/

/-- `Point` from src/server/models.py: x, y, z coordinates (z defaults to 0). -/
structure Point where
  x : ℚ
  y : ℚ
  z : ℚ := 0
deriving DecidableEq, Repr

/-- Default point used only to give total list indexing in the embedding;
the source loop only ever indexes in range. -/
def origin : Point := ⟨0, 0, 0⟩

/-- The signed shoelace accumulator of `calculate_area_from_points`
(src/server/utils.py lines 58-64): for i in range(n), with j = (i+1) % n,
add `points[i].x * points[j].y` and subtract `points[j].x * points[i].y`. -/
def shoelaceSum (points : List Point) : ℚ :=
  ((List.range points.length).map (fun i =>
    (points.getD i origin).x * (points.getD ((i + 1) % points.length) origin).y
      - (points.getD ((i + 1) % points.length) origin).x * (points.getD i origin).y)).sum

/-- `calculate_area_from_points` (src/server/utils.py lines 53-66): returns 0
for fewer than 3 points, otherwise `abs(area) / 2`. -/
def calculate_area_from_points (points : List Point) : ℚ :=
  if points.length < 3 then 0
  else |shoelaceSum points| / 2

/-! ## format_lisp_string (src/server/utils.py lines 120-125) -/

/-- `text.replace(chr(92), chr(92)*2)`: double every backslash.  The pattern is a
single character, so Python replace acts characterwise. -/
def escBackslash : List Char → List Char
  | [] => []
  | c :: t => (if c = bsChar then [bsChar, bsChar] else [c]) ++ escBackslash t

/-- `text.replace(chr(34), chr(92) ++ chr(34))`: prefix every double quote with a
backslash. -/
def escQuote : List Char → List Char
  | [] => []
  | c :: t => (if c = qChar then [bsChar, qChar] else [c]) ++ escQuote t

/-- `format_lisp_string`: double backslashes, escape quotes, wrap in quotes. -/
def format_lisp_string (text : String) : String :=
  ⟨qChar :: escQuote (escBackslash text.data) ++ [qChar]⟩

/-- One combined escaping step: what `escQuote ∘ escBackslash` does to a single
character. -/
def escChar (c : Char) : List Char :=
  if c = bsChar then [bsChar, bsChar]
  else if c = qChar then [bsChar, qChar]
  else [c]

/-- The full escaping of a character list. -/
def escFull : List Char → List Char
  | [] => []
  | c :: t => escChar c ++ escFull t

/-- Doubling of backslashes only (the intermediate shape reached after the
quote-escapes have been undone). -/
def dblBackslash : List Char → List Char
  | [] => []
  | c :: t => (if c = bsChar then [bsChar, bsChar] else [c]) ++ dblBackslash t

/-- Reversal step 1, from the spec sentence: undo the quote escapes, i.e. the
left-to-right non-overlapping replacement of backslash-quote by quote. -/
def undoQuote : List Char → List Char
  | [] => []
  | [c] => [c]
  | a :: b :: r =>
    if a = bsChar ∧ b = qChar then qChar :: undoQuote r
    else a :: undoQuote (b :: r)

/-- Reversal step 2, from the spec sentence: undo the backslash doubling, i.e.
the left-to-right non-overlapping replacement of two backslashes by one. -/
def undoBackslash : List Char → List Char
  | [] => []
  | [c] => [c]
  | a :: b :: r =>
    if a = bsChar ∧ b = bsChar then bsChar :: undoBackslash r
    else a :: undoBackslash (b :: r)

/-- Reversal step 0, from the spec sentence: strip the wrapping quotes (drop
the first and the last character). -/
def stripQuotes (s : String) : String :=
  ⟨(s.data.drop 1).dropLast⟩

/-- The full reversal of the escaping, as the spec describes it: strip the
wrapping quotes, undo the quote escapes, undo the backslash doubling. -/
def unescapeLispString (s : String) : String :=
  ⟨undoBackslash (undoQuote s.data)⟩

/-! ## sanitize_layer_name (src/server/utils.py lines 136-148) -/

/-- The disallowed character set of `sanitize_layer_name`, in source order. -/
def invalidChars : List Char := ['<', '>', ':', qChar, '/', bsChar, '|', '?', '*']

/-- One `name.replace(char, underscore)` pass: the pattern is a single character,
so it acts characterwise. -/
def pyReplaceChar (a b : Char) (s : List Char) : List Char :=
  s.map (fun c => if c = a then b else c)

/-- The loop `for char in invalid_chars: name = name.replace(char, underscore)`. -/
def replaceInvalid (s : List Char) : List Char :=
  invalidChars.foldl (fun acc ch => pyReplaceChar ch '_' acc) s

/-- `if name and name[0].isdigit(): name = underscore + name`.  Python
`str.isdigit` additionally accepts some non-ASCII digit characters; layer
names are modelled over the ASCII digits, which is what every name reaching
this function in the repository contains. -/
def prefixDigit (s : List Char) : List Char :=
  match s with
  | [] => []
  | c :: _ => if c.isDigit then '_' :: s else s

/-- `sanitize_layer_name`: replace each disallowed character by an underscore,
prefix an underscore when the first character is a digit, then
`name[:255] if name else "DEFAULT_LAYER"`. -/
def sanitize_layer_name (name : String) : String :=
  let s := prefixDigit (replaceInvalid name.data)
  if s.isEmpty then "DEFAULT_LAYER" else ⟨s.take 255⟩

/-- What one pass of the sequential replacement loop does to a single
character (a character of the disallowed set becomes an underscore). -/
def gchar (c : Char) : Char :=
  if c ∈ invalidChars then '_' else c

/-- The sanitizer as the spec sentence describes it: replace each character
of the disallowed set by an underscore, prefix an underscore when the first
character is numeric, truncate to 255 characters, and map empty INPUT to the
fixed default name. -/
def sanitizeSpecDescribed (name : String) : String :=
  if name = "" then "DEFAULT_LAYER"
  else
    let repl := name.data.map gchar
    let pre :=
      match repl with
      | [] => repl
      | c :: _ => if c.isDigit then '_' :: repl else repl
    ⟨pre.take 255⟩

/-! ## The session registry (src/server/autocad_interface.py)

The COM automation world is modelled as an oracle `ComEnv`: each external
automation call the registry makes is a field of the environment, returning
either a value or the message of the fault it raises.  Handles to automation
objects (applications, documents, model spaces) are opaque naturals.  The
Python dict `self.connections` is an ordered association list with dict
semantics.  Wall-clock times are not modelled; the `execution_time` field is
kept at 0. -/

/-- The Python exception values that flow through the registry. -/
inductive PyExc where
  | typeError (msg : String)
  | attributeError (msg : String)
  | runtimeError (msg : String)
  | comError (msg : String)
  | connectionError (msg : String)
deriving DecidableEq, Repr

/-- `str(e)` on a Python exception: its message text. -/
def pyStr : PyExc → String
  | .typeError m => m
  | .attributeError m => m
  | .runtimeError m => m
  | .comError m => m
  | .connectionError m => m

/-- `AutoCADConnection` from src/server/models.py lines 139-144.  The
dataclass declares exactly these three fields: `instance_id`, `application`
and `connected` — it does NOT declare `document` or `model_space`. -/
structure AutoCADConnection where
  instance_id : String
  application : Option ℕ := none
  connected : Bool := false
deriving DecidableEq, Repr

/-- `LispExecutionResult` from src/server/models.py lines 146-152. -/
structure LispExecutionResult where
  success : Bool
  result : Option String := none
  error_message : String := ""
  execution_time : ℚ := 0
deriving DecidableEq, Repr

/-- The property bundle read by `get_active_document_info` from a live
document handle. -/
structure DocProps where
  name : String
  path : String
  units : String
  saved : Bool
  read_only : Bool
deriving DecidableEq, Repr

/-- The COM world, as an oracle giving the outcome of each external call:
`.ok` is a normal return, `.error` carries the message of the raised fault. -/
structure ComEnv where
  comInit : Except String Unit
  comUninit : Except String Unit
  getActiveObject : Except String ℕ
  dispatch : Except String ℕ
  supportPath : ℕ → Except String Unit
  activeDocument : ℕ → Except String ℕ
  documentsAdd : ℕ → Except String ℕ
  modelSpace : ℕ → Except String ℕ
  appName : ℕ → Except String String
  sendString : ℕ → String → Except String Unit
  docProps : ℕ → Except String DocProps

/-- The mutable state of an `AutoCADInterface` object: the registry dict and
the COM-initialisation flag. -/
structure RegistryState where
  connections : List (String × AutoCADConnection) := []
  com_initialized : Bool := false
deriving DecidableEq, Repr

/-- Python `dict.get` / `dict[k]`: first (and, keys being unique, only)
binding of the key. -/
def dictGet (d : List (String × AutoCADConnection)) (k : String) :
    Option AutoCADConnection :=
  match d with
  | [] => none
  | (k1, v) :: t => if k1 = k then some v else dictGet t k

/-- Python `k in dict`. -/
def dictContains (d : List (String × AutoCADConnection)) (k : String) : Bool :=
  (dictGet d k).isSome

/-- Python `del dict[k]`: remove the binding of the key. -/
def dictDel (d : List (String × AutoCADConnection)) (k : String) :
    List (String × AutoCADConnection) :=
  match d with
  | [] => []
  | (k1, v) :: t => if k1 = k then t else (k1, v) :: dictDel t k

/-- Python `dict[k] = v`: overwrite in place, or append a new binding. -/
def dictSet (d : List (String × AutoCADConnection)) (k : String)
    (v : AutoCADConnection) : List (String × AutoCADConnection) :=
  match d with
  | [] => [(k, v)]
  | (k1, v1) :: t => if k1 = k then (k1, v) :: t else (k1, v1) :: dictSet t k v

/-- `_initialize_com` (autocad_interface.py lines 54-68): on success the flag
is set; a CoInitialize fault is wrapped into `AutoCADConnectionError` and the
flag is left unchanged.  The non-Windows mock never faults, which is the
`.ok` case. -/
def initComStep (env : ComEnv) (st : RegistryState) :
    Except PyExc Unit × RegistryState :=
  match env.comInit with
  | .ok _ => (.ok (), { st with com_initialized := true })
  | .error d =>
    (.error (.connectionError ("Failed to initialize COM library: " ++ d)), st)

/-- `_uninitialize_com` (lines 70-81): clears the flag; a CoUninitialize
fault is caught and logged, leaving the flag set. -/
def uninitComStep (env : ComEnv) (st : RegistryState) : RegistryState :=
  if st.com_initialized then
    match env.comUninit with
    | .ok _ => { st with com_initialized := false }
    | .error _ => st
  else st

/-- `is_connection_alive` (lines 164-173): a null handle is not alive;
otherwise probe by reading `application.Name`, treating any fault as not
alive. -/
def is_connection_alive (env : ComEnv) (c : AutoCADConnection) : Bool :=
  match c.application with
  | none => false
  | some app =>
    match env.appName app with
    | .ok _ => true
    | .error _ => false

/-- `get_connection` (lines 155-162): look up by key; evict and return none
when the liveness probe fails. -/
def get_connection (env : ComEnv) (st : RegistryState) (instance_id : String) :
    Option AutoCADConnection × RegistryState :=
  match dictGet st.connections instance_id with
  | none => (none, st)
  | some c =>
    if is_connection_alive env c then (some c, st)
    else (none, { st with connections := dictDel st.connections instance_id })

/-- The message of the TypeError raised at autocad_interface.py line 137:
the call constructs `AutoCADConnection` with `document=` and `model_space=`
keyword arguments that the dataclass does not declare.  (The Python message
text mentions the unexpected keyword; the exact wording is immaterial to the
claims.) -/
def ctorFaultMsg : String :=
  "AutoCADConnection.init got an unexpected keyword argument document"

/-- The record construction at lines 137-143.  Because the dataclass
generated constructor accepts only `instance_id`, `application` and
`connected`, passing `document=` and `model_space=` raises TypeError for
every input. -/
def mkConnectionWithDocumentKwargs (_instance_id : String)
    (_app _doc _ms : ℕ) : Except PyExc AutoCADConnection :=
  Except.error (.typeError ctorFaultMsg)

/-- Lines 103-112: try `GetActiveObject`; on any fault (the bare `except`)
start a new instance via `Dispatch` (folding in `app.Visible = True` and the
settle sleep, which this layer does not observe). -/
def attachStep (env : ComEnv) : Except PyExc ℕ :=
  match env.getActiveObject with
  | .ok a => .ok a
  | .error _ =>
    match env.dispatch with
    | .ok a => .ok a
    | .error d => .error (.comError d)

/-- Lines 125-132: try `app.ActiveDocument`; on any fault create a new
drawing via `Documents.Add` (plus settle sleep, unobserved here). -/
def docStep (env : ComEnv) (app : ℕ) : Except PyExc ℕ :=
  match env.activeDocument app with
  | .ok doc => .ok doc
  | .error _ =>
    match env.documentsAdd app with
    | .ok doc => .ok doc
    | .error d => .error (.comError d)

/-- The body of the try-block of `connect_to_autocad` (lines 97-148):
COM init, attach-or-launch, support-path update, active-document-or-create,
model space read, record construction, registration. -/
def connectBody (env : ComEnv) (st : RegistryState) (instance_id : String) :
    Except PyExc AutoCADConnection × RegistryState :=
  match initComStep env st with
  | (.error e, st1) => (.error e, st1)
  | (.ok _, st1) =>
    match attachStep env with
    | .error e => (.error e, st1)
    | .ok app =>
      match env.supportPath app with
      | .error d => (.error (.comError d), st1)
      | .ok _ =>
        match docStep env app with
        | .error e => (.error e, st1)
        | .ok doc =>
          match env.modelSpace doc with
          | .error d => (.error (.comError d), st1)
          | .ok ms =>
            match mkConnectionWithDocumentKwargs instance_id app doc ms with
            | .error e => (.error e, st1)
            | .ok connection =>
              (.ok connection,
               { st1 with
                  connections := dictSet st1.connections instance_id connection })

/-- `connect_to_autocad` (lines 83-153): run the body; any fault is wrapped
into `AutoCADConnectionError` with the original message appended. -/
def connect_to_autocad (env : ComEnv) (st : RegistryState)
    (instance_id : String) : Except PyExc AutoCADConnection × RegistryState :=
  match connectBody env st instance_id with
  | (.ok c, st1) => (.ok c, st1)
  | (.error e, st1) =>
    (.error (.connectionError ("Failed to connect to AutoCAD: " ++ pyStr e)), st1)

/-- The attribute access `connection.document`: the `AutoCADConnection`
dataclass declares no `document` field, so the lookup raises AttributeError
for every connection value. -/
def connDocument (_c : AutoCADConnection) : Except PyExc ℕ :=
  Except.error (.attributeError "AutoCADConnection object has no attribute document")

/-- Observable side channel of one `execute_lisp` call: whether an implicit
connect was attempted, and the exact strings handed to
`SendStringToExecute`. -/
structure ExecTrace where
  connectAttempted : Bool := false
  sent : List String := []
deriving DecidableEq, Repr

/-- The failure result built in the except-clause of `execute_lisp`
(lines 217-226). -/
def mkFailResult (e : PyExc) : LispExecutionResult :=
  { success := false, error_message := "Failed to execute LISP code: " ++ pyStr e }

/-- Resolution step of `execute_lisp` (lines 193-196): `get_connection`,
falling back to `connect_to_autocad` when absent. -/
def resolveConn (env : ComEnv) (st : RegistryState) (instance_id : String) :
    Except PyExc AutoCADConnection × RegistryState × ExecTrace :=
  match get_connection env st instance_id with
  | (some c, st1) => (Except.ok c, st1, {})
  | (none, st1) =>
    match connect_to_autocad env st1 instance_id with
    | (.ok c, st2) => (Except.ok c, st2, { connectAttempted := true })
    | (.error e, st2) => (Except.error e, st2, { connectAttempted := true })

/-- Validation and send step of `execute_lisp` (lines 199-215): re-validate
liveness (the resolved connection is never null here, so only the liveness
disjunct of line 199 can fire), read `connection.document`, send the code
with a trailing newline. -/
def execSend (env : ComEnv) (c : AutoCADConnection) (st : RegistryState)
    (tr : ExecTrace) (lisp_code : String) :
    Except PyExc LispExecutionResult × RegistryState × ExecTrace :=
  if ¬ is_connection_alive env c then
    (.error (.connectionError "Failed to establish or validate AutoCAD connection"),
     st, tr)
  else
    match connDocument c with
    | .error e => (.error e, st, tr)
    | .ok doc =>
      match env.sendString doc (lisp_code ++ "\n") with
      | .error d =>
        (.error (.comError d), st, { tr with sent := tr.sent ++ [lisp_code ++ "\n"] })
      | .ok _ =>
        (.ok { success := true, result := none }, st,
         { tr with sent := tr.sent ++ [lisp_code ++ "\n"] })

/-- The try-block of `execute_lisp` (lines 189-215). -/
def executeTry (env : ComEnv) (st : RegistryState)
    (lisp_code instance_id : String) :
    Except PyExc LispExecutionResult × RegistryState × ExecTrace :=
  match initComStep env st with
  | (.error e, st1) => (.error e, st1, ({} : ExecTrace))
  | (.ok _, st1) =>
    match resolveConn env st1 instance_id with
    | (.error e, st2, tr) => (.error e, st2, tr)
    | (.ok c, st2, tr) => execSend env c st2 tr lisp_code

/-- `execute_lisp` (lines 175-226): every fault of the try-block is caught
and returned as a failure result; nothing is re-raised. -/
def execute_lisp (env : ComEnv) (st : RegistryState)
    (lisp_code instance_id : String) :
    LispExecutionResult × RegistryState × ExecTrace :=
  match executeTry env st lisp_code instance_id with
  | (.ok r, st1, tr) => (r, st1, tr)
  | (.error e, st1, tr) => (mkFailResult e, st1, tr)

/-- The dict returned by `get_active_document_info` (lines 304-323): either
an error dict (no "name" key) or the document property dict. -/
inductive DocInfoDict where
  | err (msg : String)
  | info (props : DocProps)
deriving DecidableEq, Repr

/-- `.get("name", "Unknown")` on the returned dict. -/
def docInfoGetName : DocInfoDict → String
  | .err _ => "Unknown"
  | .info p => p.name

/-- `get_active_document_info` (lines 304-323): resolve the connection (this
may evict a dead session), then read `connection.document` and its
properties inside the try-block, any fault becoming an error dict.  The
property reads after the `document` access are condensed into one oracle
call; they are unreachable anyway because the `document` attribute lookup
always faults. -/
def get_active_document_info (env : ComEnv) (st : RegistryState)
    (instance_id : String) : DocInfoDict × RegistryState :=
  match get_connection env st instance_id with
  | (none, st1) => (.err "No active AutoCAD connection", st1)
  | (some c, st1) =>
    match connDocument c with
    | .error e => (.err (pyStr e), st1)
    | .ok doc =>
      match env.docProps doc with
      | .ok p => (.info p, st1)
      | .error d => (.err d, st1)

/-- One row of the `list_connections` output. -/
structure ConnInfo where
  instance_id : String
  connected : Bool
  document_name : String
deriving DecidableEq, Repr

/-- The for-loop of `list_connections` (lines 382-388) over a CPython dict
iterator: at every `next()` call — including the final, exhausting one — the
iterator first compares the current dict size with the size at iterator
creation and raises RuntimeError when they differ. -/
def listConnLoop (env : ComEnv) :
    List (String × AutoCADConnection) → ℕ → List ConnInfo → RegistryState →
    Except PyExc (List ConnInfo) × RegistryState
  | pending, n0, acc, st =>
    if st.connections.length ≠ n0 then
      (.error (.runtimeError "dictionary changed size during iteration"), st)
    else
      match pending with
      | [] => (.ok acc, st)
      | (instance_id, conn) :: rest =>
        let alive := is_connection_alive env conn
        let (info, st1) := get_active_document_info env st instance_id
        listConnLoop env rest n0
          (acc ++ [⟨instance_id, alive, docInfoGetName info⟩]) st1

/-- `list_connections` (lines 380-389). -/
def list_connections (env : ComEnv) (st : RegistryState) :
    Except PyExc (List ConnInfo) × RegistryState :=
  listConnLoop env st.connections st.connections.length [] st

/-- `disconnect` (lines 340-365): remove the binding when present (the
`connection.connected = False` write mutates a record that is deleted on the
next line, so it is not observable afterwards), uninitialise COM when the
registry became empty, return whether a removal occurred.  No operation in
the try-block can fault. -/
def disconnect (env : ComEnv) (st : RegistryState) (instance_id : String) :
    Bool × RegistryState :=
  if dictContains st.connections instance_id then
    let st1 := { st with connections := dictDel st.connections instance_id }
    let st2 := if st1.connections.isEmpty then uninitComStep env st1 else st1
    (true, st2)
  else
    (false, st)

/-- A session has no live entry under the key: either the key is unbound or
the bound session fails the liveness probe. -/
def noLiveSession (env : ComEnv) (st : RegistryState) (instance_id : String) :
    Prop :=
  match dictGet st.connections instance_id with
  | none => True
  | some c => is_connection_alive env c = false

/-- A fully reachable automation world: every oracle call succeeds.  Used to
instantiate the universally quantified theorems at a concrete environment. -/
def envAllOk : ComEnv where
  comInit := .ok ()
  comUninit := .ok ()
  getActiveObject := .ok 0
  dispatch := .ok 0
  supportPath := fun _ => .ok ()
  activeDocument := fun _ => .ok 0
  documentsAdd := fun _ => .ok 0
  modelSpace := fun _ => .ok 0
  appName := fun _ => .ok "AutoCAD"
  sendString := fun _ _ => .ok ()
  docProps := fun _ => .ok ⟨"Drawing1.dwg", "", "4", false, false⟩

/-- A world in which every liveness probe (`application.Name`) faults. -/
def envDeadApp : ComEnv :=
  { envAllOk with appName := fun _ => .error "COM server unavailable" }

/-- A registry holding one session for key "default" whose handle is 0. -/
def stOne : RegistryState :=
  { connections := [("default", { instance_id := "default", application := some 0, connected := true })],
    com_initialized := true }

/-! ## Theorems: the shoelace area (claims about rotation, reversal, values) -/

/-- The loop body of `calculate_area_from_points` at index `i`. -/
def slTerm (l : List Point) (i : ℕ) : ℚ :=
  (l.getD i origin).x * (l.getD ((i + 1) % l.length) origin).y
    - (l.getD ((i + 1) % l.length) origin).x * (l.getD i origin).y

theorem list_range_map_sum (f : ℕ → ℚ) (n : ℕ) :
    ((List.range n).map f).sum = ∑ i in Finset.range n, f i := by
  induction n with
  | zero => simp
  | succ m ih =>
    rw [List.range_succ, List.map_append, List.sum_append, Finset.sum_range_succ, ih]
    simp

theorem shoelaceSum_eq_sum (l : List Point) :
    shoelaceSum l = ∑ i in Finset.range l.length, slTerm l i := by
  unfold shoelaceSum slTerm
  exact list_range_map_sum _ _

theorem getD_rotate (l : List Point) (k i : ℕ) (h : i < l.length) :
    (l.rotate k).getD i origin = l.getD ((i + k) % l.length) origin := by
  have h1 : i < (l.rotate k).length := by simpa using h
  have h2 : (i + k) % l.length < l.length := Nat.mod_lt _ (by omega)
  rw [List.getD_eq_getElem _ _ h1, List.getD_eq_getElem _ _ h2]
  exact List.getElem_rotate l k i h1

theorem getD_reverse (l : List Point) (i : ℕ) (h : i < l.length) :
    l.reverse.getD i origin = l.getD (l.length - 1 - i) origin := by
  have h1 : i < l.reverse.length := by simpa using h
  have h2 : l.length - 1 - i < l.length := by omega
  rw [List.getD_eq_getElem _ _ h1, List.getD_eq_getElem _ _ h2]
  exact List.getElem_reverse h1

theorem slTerm_rotate (l : List Point) (k i : ℕ) (h : i < l.length) :
    slTerm (l.rotate k) i = slTerm l ((i + k) % l.length) := by
  have hn : 0 < l.length := by omega
  have h1 : (i + 1) % l.length < l.length := Nat.mod_lt _ hn
  unfold slTerm
  rw [List.length_rotate, getD_rotate l k i h, getD_rotate l k _ h1]
  have e : ((i + 1) % l.length + k) % l.length = ((i + k) % l.length + 1) % l.length := by
    rw [Nat.mod_add_mod, Nat.mod_add_mod, Nat.add_right_comm]
  rw [e]

theorem sum_range_mod_shift (n k : ℕ) (hn : 0 < n) (g : ℕ → ℚ) :
    ∑ i in Finset.range n, g ((i + k) % n) = ∑ i in Finset.range n, g i := by
  have hd := Nat.div_add_mod k n
  have hk : k % n < n := Nat.mod_lt _ hn
  apply Finset.sum_nbij' (fun i => (i + k) % n) (fun j => (j + (n - k % n)) % n)
  · intro a _
    exact Finset.mem_range.2 (Nat.mod_lt _ hn)
  · intro b _
    exact Finset.mem_range.2 (Nat.mod_lt _ hn)
  · intro a ha
    have ha' : a < n := Finset.mem_range.1 ha
    rw [Nat.mod_add_mod]
    have e2 : n * (k / n + 1) = n * (k / n) + n := by ring
    have e : a + k + (n - k % n) = a + n * (k / n + 1) := by omega
    rw [e, Nat.add_mul_mod_self_left, Nat.mod_eq_of_lt ha']
  · intro b hb
    have hb' : b < n := Finset.mem_range.1 hb
    rw [Nat.mod_add_mod]
    have e2 : n * (k / n + 1) = n * (k / n) + n := by ring
    have e : b + (n - k % n) + k = b + n * (k / n + 1) := by omega
    rw [e, Nat.add_mul_mod_self_left, Nat.mod_eq_of_lt hb']
  · intro a _
    rfl

theorem sigma_eval (n a : ℕ) (hn : 0 < n) (ha : a < n) :
    (2 * n - 2 - a) % n = if a = n - 1 then n - 1 else n - 2 - a := by
  rcases eq_or_ne a (n - 1) with h | h
  · have e : 2 * n - 2 - a = n - 1 := by omega
    rw [e, Nat.mod_eq_of_lt (by omega), if_pos h]
  · have ha2 : a ≤ n - 2 := by omega
    have e : 2 * n - 2 - a = (n - 2 - a) + n := by omega
    rw [if_neg h, e, Nat.add_mod_right, Nat.mod_eq_of_lt (by omega)]

theorem sum_range_sigma (n : ℕ) (hn : 0 < n) (g : ℕ → ℚ) :
    ∑ i in Finset.range n, g ((2 * n - 2 - i) % n) = ∑ i in Finset.range n, g i := by
  have inv : ∀ a ∈ Finset.range n, (2 * n - 2 - (2 * n - 2 - a) % n) % n = a := by
    intro a ha
    have ha' : a < n := Finset.mem_range.1 ha
    rw [sigma_eval n a hn ha']
    rcases eq_or_ne a (n - 1) with h | h
    · rw [if_pos h, sigma_eval n (n - 1) hn (by omega), if_pos rfl, h]
    · rw [if_neg h]
      have ha2 : a ≤ n - 2 := by omega
      have hne : n - 2 - a ≠ n - 1 := by omega
      rw [sigma_eval n (n - 2 - a) hn (by omega), if_neg hne]
      omega
  apply Finset.sum_nbij' (fun i => (2 * n - 2 - i) % n) (fun i => (2 * n - 2 - i) % n)
  · intro a _
    exact Finset.mem_range.2 (Nat.mod_lt _ hn)
  · intro b _
    exact Finset.mem_range.2 (Nat.mod_lt _ hn)
  · exact inv
  · exact inv
  · intro a _
    rfl

theorem slTerm_reverse (l : List Point) (h3 : 3 ≤ l.length) (i : ℕ)
    (h : i < l.length) :
    slTerm l.reverse i = -(slTerm l ((2 * l.length - 2 - i) % l.length)) := by
  have hn : 0 < l.length := by omega
  unfold slTerm
  rw [List.length_reverse]
  rcases eq_or_ne i (l.length - 1) with hc | hc
  · have e1 : (i + 1) % l.length = 0 := by
      rw [hc]
      have e : l.length - 1 + 1 = l.length := by omega
      rw [e, Nat.mod_self]
    rw [sigma_eval _ _ hn h, if_pos hc, e1]
    have e2 : (l.length - 1 + 1) % l.length = 0 := by
      have e : l.length - 1 + 1 = l.length := by omega
      rw [e, Nat.mod_self]
    rw [e2]
    rw [getD_reverse l i h, getD_reverse l 0 (by omega), hc]
    have e3 : l.length - 1 - (l.length - 1) = 0 := by omega
    have e4 : l.length - 1 - 0 = l.length - 1 := by omega
    rw [e3, e4]
    ring
  · have hi2 : i < l.length - 1 := by omega
    have e1 : (i + 1) % l.length = i + 1 := Nat.mod_eq_of_lt (by omega)
    rw [sigma_eval _ _ hn h, if_neg hc, e1]
    have e2 : (l.length - 2 - i + 1) % l.length = l.length - 1 - i := by
      have e : l.length - 2 - i + 1 = l.length - 1 - i := by omega
      rw [e, Nat.mod_eq_of_lt (by omega)]
    rw [e2]
    rw [getD_reverse l i h, getD_reverse l (i + 1) (by omega)]
    have e3 : l.length - 1 - (i + 1) = l.length - 2 - i := by omega
    rw [e3]
    ring

theorem shoelaceSum_rotate (l : List Point) (k : ℕ) (hn : 0 < l.length) :
    shoelaceSum (l.rotate k) = shoelaceSum l := by
  rw [shoelaceSum_eq_sum, shoelaceSum_eq_sum, List.length_rotate]
  rw [Finset.sum_congr rfl (fun i hi => slTerm_rotate l k i (Finset.mem_range.1 hi))]
  exact sum_range_mod_shift l.length k hn (slTerm l)

theorem shoelaceSum_reverse (l : List Point) (h3 : 3 ≤ l.length) :
    shoelaceSum l.reverse = -shoelaceSum l := by
  have hn : 0 < l.length := by omega
  rw [shoelaceSum_eq_sum, shoelaceSum_eq_sum, List.length_reverse]
  rw [Finset.sum_congr rfl (fun i hi => slTerm_reverse l h3 i (Finset.mem_range.1 hi))]
  rw [Finset.sum_neg_distrib, sum_range_sigma l.length hn (slTerm l)]

/-- C5: for every point list with at least 3 vertices (in particular every
simple polygon), `calculate_area_from_points` is invariant under cyclic
rotation of the vertex list by any amount and under reversal of the list;
the signed shoelace sum flips sign under reversal while the absolute value —
hence the returned area — is stable. -/
theorem calculate_area_rotation_reversal_invariant (l : List Point) (k : ℕ)
    (h3 : 3 ≤ l.length) :
    calculate_area_from_points (l.rotate k) = calculate_area_from_points l ∧
    calculate_area_from_points l.reverse = calculate_area_from_points l ∧
    shoelaceSum l.reverse = -shoelaceSum l := by
  have hn : 0 < l.length := by omega
  refine ⟨?_, ?_, shoelaceSum_reverse l h3⟩
  · unfold calculate_area_from_points
    rw [List.length_rotate, shoelaceSum_rotate l k hn]
  · unfold calculate_area_from_points
    rw [List.length_reverse, shoelaceSum_reverse l h3, abs_neg]

theorem calculate_area_rotation_reversal_invariant_witness :
    3 ≤ ([⟨0,0,0⟩, ⟨10,0,0⟩, ⟨5,8,0⟩] : List Point).length ∧
    (calculate_area_from_points (([⟨0,0,0⟩, ⟨10,0,0⟩, ⟨5,8,0⟩] : List Point).rotate 1) =
        calculate_area_from_points ([⟨0,0,0⟩, ⟨10,0,0⟩, ⟨5,8,0⟩] : List Point) ∧
      calculate_area_from_points ([⟨0,0,0⟩, ⟨10,0,0⟩, ⟨5,8,0⟩] : List Point).reverse =
        calculate_area_from_points ([⟨0,0,0⟩, ⟨10,0,0⟩, ⟨5,8,0⟩] : List Point) ∧
      shoelaceSum ([⟨0,0,0⟩, ⟨10,0,0⟩, ⟨5,8,0⟩] : List Point).reverse =
        -shoelaceSum ([⟨0,0,0⟩, ⟨10,0,0⟩, ⟨5,8,0⟩] : List Point)) :=
  ⟨by norm_num,
   calculate_area_rotation_reversal_invariant [⟨0,0,0⟩, ⟨10,0,0⟩, ⟨5,8,0⟩] 1 (by norm_num)⟩

/-- C9: the shoelace area of (0,0),(100,0),(100,80),(0,80) is exactly 8000
and the shoelace area of (0,0),(10,0),(5,8) is exactly 40. -/
theorem calculate_area_concrete_values :
    calculate_area_from_points [⟨0,0,0⟩, ⟨100,0,0⟩, ⟨100,80,0⟩, ⟨0,80,0⟩] = 8000 ∧
    calculate_area_from_points [⟨0,0,0⟩, ⟨10,0,0⟩, ⟨5,8,0⟩] = 40 := by
  constructor
  · have h1 : shoelaceSum [⟨0,0,0⟩, ⟨100,0,0⟩, ⟨100,80,0⟩, ⟨0,80,0⟩] = 16000 := by
      norm_num [shoelaceSum, List.range_succ]
    rw [calculate_area_from_points, if_neg (by norm_num), h1]
    norm_num
  · have h1 : shoelaceSum [⟨0,0,0⟩, ⟨10,0,0⟩, ⟨5,8,0⟩] = 80 := by
      norm_num [shoelaceSum, List.range_succ]
    rw [calculate_area_from_points, if_neg (by norm_num), h1]
    norm_num

/-! ## Theorems: the escaping round trip (format_lisp_string) -/

theorem bs_ne_q : bsChar ≠ qChar := by decide

theorem escQuote_append (a b : List Char) :
    escQuote (a ++ b) = escQuote a ++ escQuote b := by
  induction a with
  | nil => simp [escQuote]
  | cons c t ih => simp [escQuote, ih]

theorem escQuote_escBackslash (d : List Char) :
    escQuote (escBackslash d) = escFull d := by
  induction d with
  | nil => rfl
  | cons c t ih =>
    rcases eq_or_ne c bsChar with h | h
    · subst h
      simp [escBackslash, escQuote_append, ih, escFull, escChar, escQuote, bs_ne_q]
    · rcases eq_or_ne c qChar with h2 | h2
      · subst h2
        simp [escBackslash, escQuote_append, ih, escFull, escChar, escQuote, bs_ne_q, h]
      · simp [escBackslash, escQuote_append, ih, escFull, escChar, escQuote, h, h2]

theorem undoQuote_cons_ne (a : Char) (l : List Char) (h : a ≠ bsChar) :
    undoQuote (a :: l) = a :: undoQuote l := by
  cases l with
  | nil => rfl
  | cons b r =>
    rw [undoQuote, if_neg]
    intro hc
    exact h hc.1

theorem undoBackslash_cons_ne (a : Char) (l : List Char) (h : a ≠ bsChar) :
    undoBackslash (a :: l) = a :: undoBackslash l := by
  cases l with
  | nil => rfl
  | cons b r =>
    rw [undoBackslash, if_neg]
    intro hc
    exact h hc.1

theorem undoQuote_escFull (d : List Char) :
    undoQuote (escFull d) = dblBackslash d ∧
    undoQuote (bsChar :: escFull d) = bsChar :: dblBackslash d := by
  induction d with
  | nil => exact ⟨rfl, rfl⟩
  | cons c t ih =>
    obtain ⟨ih1, ih2⟩ := ih
    rcases eq_or_ne c bsChar with h | h
    · subst h
      have he : escFull (bsChar :: t) = bsChar :: bsChar :: escFull t := by
        simp [escFull, escChar]
      have hd : dblBackslash (bsChar :: t) = bsChar :: bsChar :: dblBackslash t := by
        simp [dblBackslash]
      have g1 : undoQuote (escFull (bsChar :: t)) = dblBackslash (bsChar :: t) := by
        rw [he, hd, undoQuote, if_neg (fun hc => bs_ne_q hc.2), ih2]
      refine ⟨g1, ?_⟩
      rw [he, hd, undoQuote, if_neg (fun hc => bs_ne_q hc.2)]
      rw [he, hd] at g1
      rw [g1]
    · rcases eq_or_ne c qChar with h2 | h2
      · subst h2
        have he : escFull (qChar :: t) = bsChar :: qChar :: escFull t := by
          simp [escFull, escChar, bs_ne_q, h]
        have hd : dblBackslash (qChar :: t) = qChar :: dblBackslash t := by
          simp [dblBackslash, h]
        have g1 : undoQuote (escFull (qChar :: t)) = dblBackslash (qChar :: t) := by
          rw [he, hd, undoQuote, if_pos ⟨rfl, rfl⟩, ih1]
        refine ⟨g1, ?_⟩
        rw [he, hd, undoQuote, if_neg (fun hc => bs_ne_q hc.2)]
        rw [he, hd] at g1
        rw [g1]
      · have he : escFull (c :: t) = c :: escFull t := by
          simp [escFull, escChar, h, h2]
        have hd : dblBackslash (c :: t) = c :: dblBackslash t := by
          simp [dblBackslash, h]
        have g1 : undoQuote (escFull (c :: t)) = dblBackslash (c :: t) := by
          rw [he, hd, undoQuote_cons_ne c _ h, ih1]
        refine ⟨g1, ?_⟩
        rw [he, hd]
        have step : undoQuote (bsChar :: c :: escFull t) =
            bsChar :: undoQuote (c :: escFull t) := by
          simp only [undoQuote]
          rw [if_neg (fun hc => h2 hc.2)]
        rw [step, undoQuote_cons_ne c _ h, ih1]

theorem undoBackslash_dbl (d : List Char) :
    undoBackslash (dblBackslash d) = d := by
  induction d with
  | nil => rfl
  | cons c t ih =>
    rcases eq_or_ne c bsChar with h | h
    · subst h
      have hd : dblBackslash (bsChar :: t) = bsChar :: bsChar :: dblBackslash t := by
        simp [dblBackslash]
      rw [hd, undoBackslash, if_pos ⟨rfl, rfl⟩, ih]
    · have hd : dblBackslash (c :: t) = c :: dblBackslash t := by
        simp [dblBackslash, h]
      rw [hd, undoBackslash_cons_ne c _ h, ih]

/-- C6: for every string — in particular every string containing a quote or
backslash — reversing the escaping of `format_lisp_string` (strip the
wrapping quotes, undo the quote escapes, undo the backslash doubling)
reproduces the original string exactly. -/
theorem format_lisp_string_roundtrip (s : String) :
    unescapeLispString (stripQuotes (format_lisp_string s)) = s := by
  apply String.ext
  show undoBackslash (undoQuote
      (((qChar :: escQuote (escBackslash s.data) ++ [qChar]).drop 1).dropLast)) = s.data
  have hdrop : (qChar :: escQuote (escBackslash s.data) ++ [qChar]).drop 1 =
      escQuote (escBackslash s.data) ++ [qChar] := rfl
  rw [hdrop, List.dropLast_concat, escQuote_escBackslash,
    (undoQuote_escFull s.data).1, undoBackslash_dbl]

/-! ## Theorems: the layer-name sanitizer -/

theorem foldl_replace_map (L : List Char) (s : List Char) :
    L.foldl (fun acc ch => pyReplaceChar ch '_' acc) s =
      s.map (fun c => L.foldl (fun x ch => if x = ch then '_' else x) c) := by
  induction L generalizing s with
  | nil => simp
  | cons ch t ih =>
    rw [List.foldl_cons, ih, pyReplaceChar, List.map_map]
    rfl

theorem charAll_eq_gchar (c : Char) :
    invalidChars.foldl (fun x ch => if x = ch then '_' else x) c = gchar c := by
  by_cases hc : c ∈ invalidChars
  · simp only [invalidChars, List.mem_cons, List.not_mem_nil, or_false] at hc
    rcases hc with h | h | h | h | h | h | h | h | h <;> subst h <;> decide
  · simp only [invalidChars, List.mem_cons, List.not_mem_nil, or_false, not_or] at hc
    obtain ⟨h1, h2, h3, h4, h5, h6, h7, h8, h9⟩ := hc
    rw [gchar, if_neg]
    · simp [invalidChars, List.foldl_cons, h1, h2, h3, h4, h5, h6, h7, h8, h9]
    · simp [invalidChars, h1, h2, h3, h4, h5, h6, h7, h8, h9]

theorem replaceInvalid_eq_map (s : List Char) :
    replaceInvalid s = s.map gchar := by
  rw [replaceInvalid, foldl_replace_map]
  have e : (fun c => invalidChars.foldl (fun x ch => if x = ch then '_' else x) c) = gchar :=
    funext charAll_eq_gchar
  rw [e]

theorem gchar_underscore : gchar '_' = '_' := by decide

theorem underscore_not_digit : ('_').isDigit = false := by decide

theorem gchar_idem (c : Char) : gchar (gchar c) = gchar c := by
  by_cases h : c ∈ invalidChars
  · have h1 : gchar c = '_' := by rw [gchar, if_pos h]
    rw [h1, gchar_underscore]
  · have h1 : gchar c = c := by rw [gchar, if_neg h]
    rw [h1]
    exact h1

theorem map_gchar_idem (s : List Char) :
    (s.map gchar).map gchar = s.map gchar := by
  rw [List.map_map]
  have e : gchar ∘ gchar = gchar := funext gchar_idem
  rw [e]

theorem take255_cons (c : Char) (t : List Char) :
    (c :: t).take 255 = c :: t.take 254 := by
  have e : (255 : ℕ) = 254 + 1 := by norm_num
  rw [e, List.take_succ_cons]

/-- C7: `sanitize_layer_name` is idempotent — sanitizing an already
sanitized layer name returns it unchanged. -/
theorem sanitize_layer_name_idempotent (name : String) :
    sanitize_layer_name (sanitize_layer_name name) = sanitize_layer_name name := by
  cases hs : prefixDigit (replaceInvalid name.data) with
  | nil =>
    have h1 : sanitize_layer_name name = "DEFAULT_LAYER" := by
      unfold sanitize_layer_name
      rw [hs]
      rfl
    rw [h1]
    decide
  | cons c t =>
    have h1 : sanitize_layer_name name = ⟨(c :: t).take 255⟩ := by
      unfold sanitize_layer_name
      rw [hs]
      rfl
    have hr : replaceInvalid name.data = (replaceInvalid name.data).map gchar := by
      rw [replaceInvalid_eq_map, map_gchar_idem]
    have hct : ((c :: t).map gchar = c :: t) ∧ c.isDigit = false := by
      rcases hrr : replaceInvalid name.data with _ | ⟨c0, t0⟩
      · rw [hrr] at hs
        simp [prefixDigit] at hs
      · rw [hrr] at hs hr
        rw [prefixDigit] at hs
        by_cases hdig : c0.isDigit
        · rw [if_pos hdig] at hs
          have hc : c = '_' := by
            injection hs with hh1 hh2
            exact hh1.symm
          have ht : t = c0 :: t0 := by
            injection hs with hh1 hh2
            exact hh2.symm
          constructor
          · rw [hc, ht, List.map_cons, gchar_underscore, ← hr]
          · rw [hc]
            exact underscore_not_digit
        · rw [if_neg hdig] at hs
          constructor
          · rw [← hs, ← hr]
          · have hc : c = c0 := by
              injection hs with hh1 hh2
              exact hh1.symm
            rw [hc]
            exact Bool.eq_false_iff.2 hdig
    obtain ⟨hfix, hdig⟩ := hct
    have hfix2 : gchar c = c ∧ t.map gchar = t := by
      have h2 := hfix
      rw [List.map_cons, List.cons.injEq] at h2
      exact h2
    obtain ⟨hgc, hgt⟩ := hfix2
    rw [h1]
    unfold sanitize_layer_name
    have hdata : (⟨(c :: t).take 255⟩ : String).data = (c :: t).take 255 := rfl
    rw [hdata, replaceInvalid_eq_map]
    have hmap : ((c :: t).take 255).map gchar = (c :: t).take 255 := by
      rw [List.map_take, hfix]
    rw [hmap, take255_cons]
    have hpre : prefixDigit (c :: t.take 254) = c :: t.take 254 := by
      rw [prefixDigit, if_neg (by rw [hdig]; exact Bool.false_ne_true)]
    rw [hpre]
    show (if (c :: List.take 254 t).isEmpty = true then "DEFAULT_LAYER"
          else (⟨(c :: List.take 254 t).take 255⟩ : String)) = ⟨c :: List.take 254 t⟩
    rw [if_neg (by simp)]
    rw [take255_cons, List.take_take]
    norm_num

/-- C8: `sanitize_layer_name` computes exactly the spec-described sanitizer
(replace each disallowed character by an underscore, prefix an underscore
when the first character is numeric, truncate to 255, fixed default for
empty input), and in particular maps "WALL<TEST>" to "WALL_TEST_", "1WALLS"
to "_1WALLS" and "" to "DEFAULT_LAYER". -/
theorem sanitize_layer_name_spec_and_values :
    (∀ name : String, sanitize_layer_name name = sanitizeSpecDescribed name) ∧
    sanitize_layer_name "WALL<TEST>" = "WALL_TEST_" ∧
    sanitize_layer_name "1WALLS" = "_1WALLS" ∧
    sanitize_layer_name "" = "DEFAULT_LAYER" := by
  refine ⟨?_, by decide, by decide, by decide⟩
  intro name
  cases hd : name.data with
  | nil =>
    have hname : name = "" := String.ext (by rw [hd])
    rw [hname]
    decide
  | cons c t =>
    have hname : name ≠ "" := by
      intro h
      rw [h] at hd
      exact List.noConfusion hd
    unfold sanitize_layer_name sanitizeSpecDescribed
    rw [if_neg hname, hd, replaceInvalid_eq_map]
    show (if (prefixDigit ((c :: t).map gchar)).isEmpty = true then "DEFAULT_LAYER"
          else (⟨(prefixDigit ((c :: t).map gchar)).take 255⟩ : String)) =
        ⟨(prefixDigit ((c :: t).map gchar)).take 255⟩
    rw [if_neg]
    rw [List.map_cons, prefixDigit]
    by_cases hdig : (gchar c).isDigit
    · rw [if_pos hdig]
      simp
    · rw [if_neg hdig]
      simp

/-! ## Theorems: the session registry -/

theorem initComStep_connections (env : ComEnv) (st : RegistryState) :
    (initComStep env st).2.connections = st.connections := by
  unfold initComStep
  cases env.comInit <;> rfl

theorem uninitComStep_connections (env : ComEnv) (st : RegistryState) :
    (uninitComStep env st).connections = st.connections := by
  unfold uninitComStep
  split
  · cases env.comUninit <;> rfl
  · rfl

theorem execSend_spec (env : ComEnv) (c : AutoCADConnection) (st : RegistryState)
    (tr : ExecTrace) (code : String) :
    ∃ e, execSend env c st tr code = (Except.error e, st, tr) := by
  unfold execSend
  split
  · exact ⟨_, rfl⟩
  · exact ⟨_, rfl⟩

theorem connectBody_spec (env : ComEnv) (st : RegistryState) (instance_id : String) :
    ∃ e, connectBody env st instance_id = (Except.error e, (initComStep env st).2) := by
  unfold connectBody
  rcases h0 : initComStep env st with ⟨e0 | u0, st1⟩
  · exact ⟨e0, rfl⟩
  · dsimp only
    cases ha : attachStep env with
    | error e => exact ⟨e, rfl⟩
    | ok app =>
      dsimp only
      cases hsp : env.supportPath app with
      | error d => exact ⟨_, rfl⟩
      | ok u2 =>
        dsimp only
        cases hdoc : docStep env app with
        | error e => exact ⟨e, rfl⟩
        | ok doc =>
          dsimp only
          cases hms : env.modelSpace doc with
          | error d => exact ⟨_, rfl⟩
          | ok ms => exact ⟨PyExc.typeError ctorFaultMsg, rfl⟩

theorem connect_spec (env : ComEnv) (st : RegistryState) (instance_id : String) :
    ∃ e, connectBody env st instance_id = (Except.error e, (initComStep env st).2) ∧
      connect_to_autocad env st instance_id =
        (Except.error (PyExc.connectionError ("Failed to connect to AutoCAD: " ++ pyStr e)),
         (initComStep env st).2) := by
  obtain ⟨e, he⟩ := connectBody_spec env st instance_id
  refine ⟨e, he, ?_⟩
  unfold connect_to_autocad
  rw [he]

/-- C1: `connect_to_autocad` raises `AutoCADConnectionError` for every
environment, state and instance key — even when COM init, attach/launch,
the support-path update, document acquisition and the model-space read all
succeed, in which case the wrapped fault is exactly the TypeError of the
record construction — and consequently no connect call ever changes the
registry mapping. -/
theorem connect_always_raises_never_registers (env : ComEnv) (st : RegistryState)
    (instance_id : String) :
    (∃ m, (connect_to_autocad env st instance_id).1 =
        Except.error (PyExc.connectionError m)) ∧
    (connect_to_autocad env st instance_id).2.connections = st.connections ∧
    (∀ a doc ms, env.comInit = Except.ok () →
      (env.getActiveObject = Except.ok a ∨
        ∃ d0, env.getActiveObject = Except.error d0 ∧ env.dispatch = Except.ok a) →
      env.supportPath a = Except.ok () →
      (env.activeDocument a = Except.ok doc ∨
        ∃ d1, env.activeDocument a = Except.error d1 ∧ env.documentsAdd a = Except.ok doc) →
      env.modelSpace doc = Except.ok ms →
      (connect_to_autocad env st instance_id).1 =
        Except.error (PyExc.connectionError
          ("Failed to connect to AutoCAD: " ++ ctorFaultMsg))) := by
  obtain ⟨e, hb, hc⟩ := connect_spec env st instance_id
  refine ⟨⟨_, by rw [hc]⟩, by rw [hc]; exact initComStep_connections env st, ?_⟩
  intro a doc ms h0 hattach hsp hdoc hms
  have hatt : attachStep env = Except.ok a := by
    unfold attachStep
    rcases hattach with h | ⟨d0, h, h2⟩
    · rw [h]
    · rw [h]
      dsimp only
      rw [h2]
  have hdoc2 : docStep env a = Except.ok doc := by
    unfold docStep
    rcases hdoc with h | ⟨d1, h, h2⟩
    · rw [h]
    · rw [h]
      dsimp only
      rw [h2]
  have hic : initComStep env st = (Except.ok (), { st with com_initialized := true }) := by
    unfold initComStep
    rw [h0]
  unfold connect_to_autocad connectBody
  rw [hic]
  dsimp only
  rw [hatt]
  dsimp only
  rw [hsp]
  dsimp only
  rw [hdoc2]
  dsimp only
  rw [hms]
  rfl

theorem connect_always_raises_never_registers_witness :
    (connect_to_autocad envAllOk ({} : RegistryState) "default").1 =
      Except.error (PyExc.connectionError
        ("Failed to connect to AutoCAD: " ++ ctorFaultMsg)) :=
  (connect_always_raises_never_registers envAllOk {} "default").2.2 0 0 0 rfl
    (Or.inl rfl) rfl (Or.inl rfl) rfl

/-- C4: every connect failure — and there is one for every call — surfaces
as the single `AutoCADConnectionError` kind wrapping the lower-level fault
message; and whenever connect returns successfully the session is registered
under the key, overwriting any prior entry (vacuously: the construction
fault of C1 means the success branch is unreachable). -/
theorem connect_single_error_kind_and_registration (env : ComEnv)
    (st : RegistryState) (instance_id : String) :
    (∃ e st1, connectBody env st instance_id = (Except.error e, st1) ∧
       connect_to_autocad env st instance_id =
         (Except.error (PyExc.connectionError
           ("Failed to connect to AutoCAD: " ++ pyStr e)), st1)) ∧
    (∀ c st1, connect_to_autocad env st instance_id = (Except.ok c, st1) →
       st1.connections = dictSet st.connections instance_id c) := by
  obtain ⟨e, hb, hc⟩ := connect_spec env st instance_id
  refine ⟨⟨e, _, hb, hc⟩, ?_⟩
  intro c st1 h
  rw [hc] at h
  exact absurd (congrArg Prod.fst h) (by simp)

theorem connect_single_error_kind_and_registration_witness :
    ∃ e st1, connectBody envAllOk ({} : RegistryState) "default" = (Except.error e, st1) ∧
      connect_to_autocad envAllOk ({} : RegistryState) "default" =
        (Except.error (PyExc.connectionError
          ("Failed to connect to AutoCAD: " ++ pyStr e)), st1) :=
  (connect_single_error_kind_and_registration envAllOk {} "default").1

theorem dictGet_del_ne (d : List (String × AutoCADConnection)) (k k1 : String)
    (h : k1 ≠ k) : dictGet (dictDel d k) k1 = dictGet d k1 := by
  induction d with
  | nil => rfl
  | cons p t ih =>
    obtain ⟨kp, v⟩ := p
    by_cases h1 : kp = k
    · have hdel : dictDel ((kp, v) :: t) k = t := by
        rw [dictDel, if_pos h1]
      rw [hdel]
      conv_rhs => rw [dictGet]
      rw [if_neg (fun hk => h (by rw [← hk, h1]))]
    · have hdel : dictDel ((kp, v) :: t) k = (kp, v) :: dictDel t k := by
        rw [dictDel, if_neg h1]
      rw [hdel, dictGet, dictGet]
      by_cases h2 : kp = k1
      · rw [if_pos h2, if_pos h2]
      · rw [if_neg h2, if_neg h2, ih]

/-- C10: `disconnect` removes the session entry when one is present and
returns true exactly then; on an unknown key it returns false and leaves the
state untouched (and, being a total function of the model, never raises);
the bindings of all other keys are unchanged in every case. -/
theorem disconnect_contract (env : ComEnv) (st : RegistryState)
    (instance_id : String) :
    (dictContains st.connections instance_id = true →
       (disconnect env st instance_id).1 = true ∧
       (disconnect env st instance_id).2.connections =
         dictDel st.connections instance_id) ∧
    (dictContains st.connections instance_id = false →
       disconnect env st instance_id = (false, st)) ∧
    (∀ k, k ≠ instance_id →
       dictGet (disconnect env st instance_id).2.connections k =
         dictGet st.connections k) := by
  by_cases h : dictContains st.connections instance_id
  · have hstep : (disconnect env st instance_id).1 = true ∧
        (disconnect env st instance_id).2.connections =
          dictDel st.connections instance_id := by
      unfold disconnect
      rw [if_pos h]
      refine ⟨rfl, ?_⟩
      dsimp only
      split
      · exact uninitComStep_connections env _
      · rfl
    refine ⟨fun _ => hstep, fun hf => absurd h (by rw [hf]; exact Bool.false_ne_true), ?_⟩
    intro k hk
    rw [hstep.2]
    exact dictGet_del_ne _ _ _ hk
  · have hf : dictContains st.connections instance_id = false :=
      Bool.eq_false_iff.2 h
    have hstep : disconnect env st instance_id = (false, st) := by
      unfold disconnect
      rw [if_neg h]
    refine ⟨fun ht => absurd ht (by rw [hf]; exact Bool.false_ne_true), fun _ => hstep, ?_⟩
    intro k _
    rw [hstep]

theorem disconnect_contract_witness :
    ((disconnect envAllOk stOne "default").1 = true ∧
      (disconnect envAllOk stOne "default").2.connections =
        dictDel stOne.connections "default") ∧
    disconnect envAllOk stOne "missing" = (false, stOne) ∧
    dictGet (disconnect envAllOk stOne "missing").2.connections "default" =
      dictGet stOne.connections "default" :=
  ⟨(disconnect_contract envAllOk stOne "default").1 (by decide),
   (disconnect_contract envAllOk stOne "missing").2.1 (by decide),
   (disconnect_contract envAllOk stOne "missing").2.2 "default" (by decide)⟩

theorem get_connection_none_of_noLive (env : ComEnv) (st : RegistryState)
    (instance_id : String) (h : noLiveSession env st instance_id) :
    (get_connection env st instance_id).1 = none := by
  unfold noLiveSession at h
  unfold get_connection
  cases hg : dictGet st.connections instance_id with
  | none => rfl
  | some c =>
    rw [hg] at h
    dsimp only
    rw [h]
    rfl

theorem resolveConn_attempted (env : ComEnv) (st : RegistryState)
    (instance_id : String) (h : (get_connection env st instance_id).1 = none) :
    (resolveConn env st instance_id).2.2.connectAttempted = true := by
  unfold resolveConn
  rcases hg : get_connection env st instance_id with ⟨o, st1⟩
  rw [hg] at h
  cases o with
  | none =>
    dsimp only
    rcases hc : connect_to_autocad env st1 instance_id with ⟨r, st2⟩
    cases r <;> simp [hc]
  | some c => exact absurd h (by simp)

theorem execSend_attempted (env : ComEnv) (c : AutoCADConnection)
    (st : RegistryState) (tr : ExecTrace) (code : String) :
    (execSend env c st tr code).2.2.connectAttempted = tr.connectAttempted := by
  obtain ⟨e, he⟩ := execSend_spec env c st tr code
  rw [he]

theorem executeTry_spec (env : ComEnv) (st : RegistryState)
    (lisp_code instance_id : String) :
    ∃ e st1 tr, executeTry env st lisp_code instance_id = (Except.error e, st1, tr) := by
  unfold executeTry
  rcases h0 : initComStep env st with ⟨e0 | u0, st1⟩
  · exact ⟨e0, st1, {}, rfl⟩
  · dsimp only
    rcases hr : resolveConn env st1 instance_id with ⟨e1 | c, st2, tr⟩
    · exact ⟨e1, st2, tr, rfl⟩
    · dsimp only
      obtain ⟨e2, he2⟩ := execSend_spec env c st2 tr lisp_code
      exact ⟨e2, st2, tr, he2⟩

/-- C2: `execute_lisp` never raises past its boundary: its result is always
a `LispExecutionResult`, every fault of the try-block being returned as a
failure result carrying the fault message; when the key has no live session
(and COM init succeeds, the first statement of the try-block) an implicit
connect is attempted; and a successful result can only arise from an actual
send of the source text with the trailing newline appended, with empty
error message. -/
theorem execute_lisp_boundary_contract (env : ComEnv) (st : RegistryState)
    (lisp_code instance_id : String) :
    ((execute_lisp env st lisp_code instance_id).1.success = true →
       (execute_lisp env st lisp_code instance_id).1.error_message = "" ∧
       (execute_lisp env st lisp_code instance_id).2.2.sent = [lisp_code ++ "\n"]) ∧
    ((execute_lisp env st lisp_code instance_id).1.success = false →
       ∃ e, (executeTry env st lisp_code instance_id).1 = Except.error e ∧
         (execute_lisp env st lisp_code instance_id).1.error_message =
           "Failed to execute LISP code: " ++ pyStr e) ∧
    (∀ e st1 tr, executeTry env st lisp_code instance_id = (Except.error e, st1, tr) →
       execute_lisp env st lisp_code instance_id = (mkFailResult e, st1, tr)) ∧
    (env.comInit = Except.ok () → noLiveSession env st instance_id →
       (execute_lisp env st lisp_code instance_id).2.2.connectAttempted = true) := by
  obtain ⟨e, st1, tr, he⟩ := executeTry_spec env st lisp_code instance_id
  have hx : execute_lisp env st lisp_code instance_id = (mkFailResult e, st1, tr) := by
    unfold execute_lisp
    rw [he]
  refine ⟨?_, ?_, ?_, ?_⟩
  · intro hs
    rw [hx] at hs
    exact absurd hs (by simp [mkFailResult])
  · intro _
    refine ⟨e, by rw [he], ?_⟩
    rw [hx]
    rfl
  · intro e2 st2 tr2 h2
    unfold execute_lisp
    rw [h2]
  · intro h0 hnl
    have htr : (executeTry env st lisp_code instance_id).2.2.connectAttempted = true := by
      unfold executeTry
      have hic : initComStep env st = (Except.ok (), { st with com_initialized := true }) := by
        unfold initComStep
        rw [h0]
      rw [hic]
      dsimp only
      have hget : (get_connection env { st with com_initialized := true } instance_id).1 = none :=
        get_connection_none_of_noLive env _ instance_id hnl
      have hres := resolveConn_attempted env { st with com_initialized := true } instance_id hget
      rcases hr : resolveConn env { st with com_initialized := true } instance_id with ⟨e1 | c, st2, tr2⟩
      · rw [hr] at hres
        exact hres
      · rw [hr] at hres
        dsimp only
        rw [execSend_attempted]
        exact hres
    rw [he] at htr
    rw [hx]
    exact htr

theorem execute_lisp_boundary_contract_witness :
    (execute_lisp envAllOk ({} : RegistryState) "(command)" "default").2.2.connectAttempted = true ∧
    (∃ e, (executeTry envAllOk ({} : RegistryState) "(command)" "default").1 = Except.error e ∧
      (execute_lisp envAllOk ({} : RegistryState) "(command)" "default").1.error_message =
        "Failed to execute LISP code: " ++ pyStr e) :=
  ⟨(execute_lisp_boundary_contract envAllOk {} "(command)" "default").2.2.2 rfl trivial,
   (execute_lisp_boundary_contract envAllOk {} "(command)" "default").2.1 rfl⟩

/-- C3 (refuting evaluation): on a registry holding one session whose
liveness probe fails, `list_connections` does leave the document name
"Unknown" for that entry, but the eviction performed by `get_connection`
inside `get_active_document_info` mutates the dict during iteration, so the
very next iterator step raises RuntimeError: the call returns no entries and
faults precisely because a non-alive session was present. -/
theorem list_connections_dead_session_runtime_error :
    list_connections envDeadApp stOne =
      (Except.error (PyExc.runtimeError "dictionary changed size during iteration"),
       { connections := [], com_initialized := true }) := by
  rfl

/-- When every registered session is alive, the listing returns one row per
registry entry carrying the key, the liveness flag and the document-name
field (which is "Unknown" here because the record has no document
attribute). -/
theorem list_connections_alive_ok :
    list_connections envAllOk stOne =
      (Except.ok [{ instance_id := "default", connected := true, document_name := "Unknown" }],
       stOne) := by
  rfl

end Onyx
